import Mathlib

/-!
plant-tracker-golang-backend: routing and query compilation.

A shallow embedding of `src/plant-router.go` (`ShiftPath`, the `ServeHTTP`
handlers) and `src/awsplants/aws-plants.go` (`GetPlants`, `GetOccurrences`),
followed by theorems about them.

Conventions of the embedding.

* Go strings are Lean `String`s. Go compares strings byte by byte; on UTF-8
  text this is the comparison of the code points, which `strLt` performs.
* A Go `map[string][]string` is an association list read with `List.lookup`.
* A run-time panic (index out of range) is the value `none` of an `Option`.
* A Go result `(*[]T, int, error)` is a triple `Option (List T) × Int × Option GoError`.
* Library code (strconv.Atoi, time.Parse, time.Format, path.Clean, the
  expression builder of the AWS SDK) is written out after its Go source.
  `strconv.ParseFloat` and float division are parameters (`FloatOps`).
-/

namespace PlantTracker

/-! ## Strings -/

/-- Lexicographic comparison of two character sequences by code point: Go's `<` on strings. -/
def charsLt : List Char → List Char → Bool
  | [], [] => false
  | [], _ :: _ => true
  | _ :: _, [] => false
  | a :: as, b :: bs =>
    if a.toNat < b.toNat then true
    else if b.toNat < a.toNat then false
    else charsLt as bs

/-- Go's `a < b` on strings. -/
def strLt (a b : String) : Bool := charsLt a.data b.data

/-- Go's `a > b` on strings. -/
def strGt (a b : String) : Bool := strLt b a

/-! ## Errors -/

/-- The error values that reach the handlers. -/
inductive GoError where
  /-- A strconv.NumError: the function, the input and whether it is a syntax (not a range) error. -/
  | numError (fn : String) (num : String) (isSyntax : Bool)
  /-- The expression package's UnsetParameterError. -/
  | unsetParameter (fn : String) (param : String)
  /-- The json.UnsupportedValueError of a float that is not finite; `str` is its field
  `Str`, one of "NaN", "+Inf" and "-Inf". -/
  | unsupportedValue (str : String)
  /-- An error reported by a collaborator (scan, put, unmarshal, decoding of a body). -/
  | external (msg : String)
  deriving DecidableEq, Repr

deriving instance DecidableEq for Except

/-! ## strconv.Atoi -/

/-- A decimal digit byte. -/
def isDigit (c : Char) : Bool := decide (48 ≤ c.toNat) && decide (c.toNat ≤ 57)

/-- The value of a sequence of decimal digits, most significant first. -/
def digitsValue (cs : List Char) : Nat :=
  cs.foldl (fun n c => n * 10 + (c.toNat - 48)) 0

/-- The loop of `strconv.ParseUint(s, 10, 64)` over the bytes left to read, `n` being the
value read so far: a byte that is no digit is a syntax error (`true`), a value beyond
`1<<64 - 1` a range error (`false`), whichever comes first. -/
def parseUintLoop : List Char → Nat → Except Bool Nat
  | [], n => .ok n
  | c :: t, n =>
    if !isDigit c then .error true
    else if n ≥ (2 ^ 64 - 1) / 10 + 1 then .error false
    else if n * 10 + (c.toNat - 48) > 2 ^ 64 - 1 then .error false
    else parseUintLoop t (n * 10 + (c.toNat - 48))

/-- Go's `strconv.Atoi` on a 64-bit platform (its fast path for short inputs gives what
`ParseInt(s, 10, 0)` gives): an optional sign, then one or more decimal digits, the value
within the range of `int`; a syntax or a range error otherwise. -/
def Atoi (s : String) : Except GoError Int :=
  let neg : Bool := match s.data with
    | c :: _ => c == '-'
    | [] => false
  let ds : List Char := match s.data with
    | c :: t => if c == '-' || c == '+' then t else c :: t
    | [] => []
  if ds.isEmpty then .error (.numError "Atoi" s true)
  else
    match parseUintLoop ds 0 with
    | .error isSyntax => .error (.numError "Atoi" s isSyntax)
    | .ok un =>
      if !neg && un ≥ 2 ^ 63 then .error (.numError "Atoi" s false)
      else if neg && un > 2 ^ 63 then .error (.numError "Atoi" s false)
      else .ok (if neg then -(un : Int) else (un : Int))

/-! ## time -/

/-- A `time.Time`, by its calendar reading in the zone in which it is printed (a zone with
a fixed offset): the date and the second of the day. -/
structure Time where
  year : Nat
  month : Nat
  day : Nat
  sec : Nat
  deriving DecidableEq, Repr

/-- Go's `isLeap`. -/
def isLeap (year : Nat) : Bool :=
  year % 4 == 0 && (year % 100 != 0 || year % 400 == 0)

/-- Go's `daysIn`: the number of days of a month. -/
def daysIn (month year : Nat) : Nat :=
  if month == 2 then (if isLeap year then 29 else 28)
  else if month == 4 || month == 6 || month == 9 || month == 11 then 30
  else 31

/-- The date `time.Date(1970, 1, 1, 0, 0, 0, 0, time.UTC)`. -/
def epoch : Time := { year := 1970, month := 1, day := 1, sec := 0 }

/-- Go's `time.Parse("20060102", s)`: four digits of year, two of month, two of day and
nothing more; the month within 1..12 and the day within the month. -/
def parseDate (s : String) : Option Time :=
  match s.data with
  | [y1, y2, y3, y4, m1, m2, d1, d2] =>
    if [y1, y2, y3, y4, m1, m2, d1, d2].all isDigit then
      let year := digitsValue [y1, y2, y3, y4]
      let month := digitsValue [m1, m2]
      let day := digitsValue [d1, d2]
      if month ≤ 0 || 12 < month then none
      else if day < 1 || day > daysIn month year then none
      else some { year := year, month := month, day := day, sec := 0 }
    else none
  | _ => none

/-- The effect of `t.Add(24 * time.Hour)`: the same second of the following day. -/
def addDay (t : Time) : Time :=
  if t.day < daysIn t.month t.year then { t with day := t.day + 1 }
  else if t.month < 12 then { t with month := t.month + 1, day := 1 }
  else { t with year := t.year + 1, month := 1, day := 1 }

/-- Go's `appendInt` for a non-negative number: its decimal digits, padded with zeros on
the left up to `width`. -/
def appendInt (x width : Nat) : List Char :=
  let ds := Nat.toDigits 10 x
  List.replicate (width - ds.length) '0' ++ ds

/-- Go's `t.Format("2006-01-02")`. -/
def formatDate (t : Time) : String :=
  String.mk (appendInt t.year 4 ++ [ '-'] ++ appendInt t.month 2 ++ [ '-'] ++ appendInt t.day 2)

/-! ## float64 -/

/-- A float64 value: not-a-number, an infinity, or the finite value `m * 2 ^ e`. -/
inductive F64 where
  | nan
  | inf (negative : Bool)
  | fin (m : Int) (e : Int)
  deriving DecidableEq, Repr

namespace F64

/-- Comparison `a < b` of two finite values `m₁ * 2 ^ e₁` and `m₂ * 2 ^ e₂`. -/
def finLt (m₁ e₁ m₂ e₂ : Int) : Bool :=
  let e := min e₁ e₂
  decide (m₁ * 2 ^ (e₁ - e).toNat < m₂ * 2 ^ (e₂ - e).toNat)

/-- The comparison `a < b` of IEEE 754: false as soon as one side is not a number. -/
def lt : F64 → F64 → Bool
  | nan, _ => false
  | _, nan => false
  | inf n₁, inf n₂ => n₁ && !n₂
  | inf n, fin _ _ => n
  | fin _ _, inf n => !n
  | fin m₁ e₁, fin m₂ e₂ => finLt m₁ e₁ m₂ e₂

/-- Go's `a > b`. -/
def gt (a b : F64) : Bool := lt b a

/-- The constant `0.0`. -/
def zero : F64 := fin 0 0

/-- The value of an integer constant. -/
def ofInt (n : Int) : F64 := fin n 0

/-- Whether the value is finite (encoding/json refuses the others). -/
def isFinite : F64 → Bool
  | fin _ _ => true
  | _ => false

end F64

/-- The float operations taken from the Go runtime and library: the value returned by
`strconv.ParseFloat(s, 64)` (also the one returned next to an error) and the division. -/
structure FloatOps where
  ParseFloat : String → F64
  div : F64 → F64 → F64

/-! ## Data model -/

/-- The struct `PlantInfo`. -/
structure PlantInfo where
  PlantID : Int
  Common : String
  Scientific : String
  deriving DecidableEq, Repr

/-- The struct `OccurrenceInfo`. -/
structure OccurrenceInfo where
  OccurrenceID : String
  Date : String
  Accuracy : F64
  Latitude : F64
  Longitude : F64
  PlantID : Int
  deriving DecidableEq, Repr

/-- A parameter map `map[string][]string`. -/
abbrev Values := List (String × List String)

/-- A Go result `(*[]T, int, error)`. -/
abbrev Result (α : Type) := Option (List α) × Int × Option GoError

/-! ## The expression builder and the DynamoDB client -/

/-- An `expression.Value(..)` operand: a string or an int. -/
inductive Operand where
  | str (s : String)
  | num (n : Int)
  deriving DecidableEq, Repr

/-- An `expression.ConditionBuilder`: its zero value (no condition set), or one of the two
conditions the program builds, `Name(name).Equal(Value(v))` and
`Name(name).GreaterThan(Value(v))`. -/
inductive ConditionBuilder where
  | unset
  | equal (name : String) (v : Operand)
  | greaterThan (name : String) (v : Operand)
  deriving DecidableEq, Repr

/-- What `expression.NewBuilder().WithFilter(filt).WithProjection(proj).Build()` gives. -/
structure Expression where
  Filter : ConditionBuilder
  Projection : List String
  deriving DecidableEq, Repr

/-- The builder's `Build()`: building the tree of a condition that was never set is an
UnsetParameterError; the two conditions over a non-empty name build. -/
def Build (filt : ConditionBuilder) (proj : List String) : Except GoError Expression :=
  match filt with
  | .unset => .error (.unsetParameter "buildTree" "ConditionBuilder")
  | _ => .ok { Filter := filt, Projection := proj }

/-- An item returned by a scan, by the outcomes of `dynamodbattribute.UnmarshalMap` into
each of the two structs. -/
structure Item where
  plant : Except GoError PlantInfo
  occurrence : Except GoError OccurrenceInfo

/-- The struct `dynamodb.ScanInput`, as the program fills it. -/
structure ScanInput where
  FilterExpression : ConditionBuilder
  ProjectionExpression : List String
  TableName : String
  deriving DecidableEq, Repr

/-- The client `*dynamodb.DynamoDB`, by its call `Scan`. -/
structure DynamoDB where
  Scan : ScanInput → Except GoError (List Item)

/-! ## GetPlants -/

/-- One iteration of the loop over `vals` in `GetPlants` (lines 47-64): the three keys
in turn, each overwriting `filt`; an `id` that is no integer returns the error. -/
def plantsStep (val : Values) (filt : ConditionBuilder) :
    Option (Except GoError ConditionBuilder) :=
  match (match val.lookup "common" with
      | some id => id.head?.map fun s => ConditionBuilder.equal "Common" (.str s)
      | none => some filt) with
  | none => none
  | some filt =>
    match (match val.lookup "scientific" with
        | some id => id.head?.map fun s => ConditionBuilder.equal "Scientific" (.str s)
        | none => some filt) with
    | none => none
    | some filt =>
      match val.lookup "id" with
      | some id =>
        match id.head? with
        | none => none
        | some s =>
          match Atoi s with
          | .error err => some (.error err)
          | .ok idInt => some (.ok (.equal "PlantID" (.num idInt)))
      | none => some (.ok filt)

/-- The loop `for _, val := range vals` of `GetPlants`. -/
def plantsLoop : List Values → ConditionBuilder → Option (Except GoError ConditionBuilder)
  | [], filt => some (.ok filt)
  | val :: rest, filt =>
    match plantsStep val filt with
    | none => none
    | some (.error err) => some (.error err)
    | some (.ok filt) => plantsLoop rest filt

/-- The filter of `GetPlants` (lines 41-66). -/
def plantsFilter (vals : List Values) : Option (Except GoError ConditionBuilder) :=
  if vals.length ≤ 1 then
    match vals.head? with
    | none => none
    | some v =>
      if v.length == 0 then some (.ok (.greaterThan "PlantID" (.num (-1))))
      else plantsLoop vals .unset
  else plantsLoop vals .unset

/-- The loop over `result.Items` of `GetPlants` (lines 96-120). -/
def plantsCollect : List Item → List PlantInfo → Int → Result PlantInfo
  | [], resultItems, numItems => (some resultItems, numItems, none)
  | i :: rest, resultItems, numItems =>
    match i.plant with
    | .error err => (none, -1, some err)
    | .ok item => plantsCollect rest (resultItems ++ [item]) (numItems + 1)

/-- The function `GetPlants`. -/
def GetPlants (svc : DynamoDB) (vals : List Values) : Option (Result PlantInfo) :=
  match plantsFilter vals with
  | none => none
  | some (.error err) => some (none, -1, some err)
  | some (.ok filt) =>
    let proj := ["PlantID", "Common", "Scientific"]
    match Build filt proj with
    | .error err => some (none, -1, some err)
    | .ok expr =>
      let params : ScanInput :=
        { FilterExpression := expr.Filter, ProjectionExpression := expr.Projection,
          TableName := "Plants" }
      match svc.Scan params with
      | .error err => some (none, -1, some err)
      | .ok items => some (plantsCollect items [] 0)

/-! ## GetOccurrences -/

/-- The filter of `GetOccurrences` (lines 125-150). The `err` declared inside `if prs`
shadows the outer one, which is still nil at line 143. -/
def occurrencesFilter (vals : Values) : Option ConditionBuilder :=
  let err : Option GoError := none
  match vals.lookup "id" with
  | some valID =>
    match valID.head? with
    | none => none
    | some s =>
      let id : Int := match Atoi s with
        | .ok n => n
        | .error _ => -1
      let id : Int := if err.isSome then -1 else id
      some (if id ≠ -1 then .equal "PlantID" (.num id) else .greaterThan "PlantID" (.num id))
  | none =>
    let id : Int := -1
    some (if id ≠ -1 then .equal "PlantID" (.num id) else .greaterThan "PlantID" (.num id))

/-- The variable `dateFrom` of `GetOccurrences` (lines 153-161). -/
def occurrencesDateFrom (vals : Values) : Option Time :=
  match vals.lookup "datefrom" with
  | some d1 =>
    match d1.head? with
    | none => none
    | some s =>
      match parseDate s with
      | some t => some t
      | none => some epoch
  | none => some epoch

/-- The variable `dateTo` of `GetOccurrences` (lines 163-172); `now` is `time.Now()`. -/
def occurrencesDateTo (now : Time) (vals : Values) : Option Time :=
  match vals.lookup "dateto" with
  | some d2 =>
    match d2.head? with
    | none => none
    | some s =>
      match parseDate s with
      | some t => some t
      | none => some (addDay now)
  | none => some (addDay now)

/-- The variable `acc` of `GetOccurrences` (lines 198-204). -/
def occurrencesAcc (fl : FloatOps) (vals : Values) : Option F64 :=
  match vals.lookup "acc" with
  | some a => a.head?.map fun s => fl.div (fl.ParseFloat s) (F64.ofInt 100)
  | none => some F64.zero

/-- The condition of line 249. -/
def keepOccurrence (acc : F64) (dateFrom dateTo : Time) (item : OccurrenceInfo) : Bool :=
  F64.gt item.Accuracy acc && strGt item.Date (formatDate dateFrom)
    && strLt item.Date (formatDate dateTo)

/-- The loop over `result.Items` of `GetOccurrences` (lines 236-267). -/
def occurrencesCollect (acc : F64) (dateFrom dateTo : Time) :
    List Item → List OccurrenceInfo → Int → Result OccurrenceInfo
  | [], resultItems, numItems => (some resultItems, numItems, none)
  | i :: rest, resultItems, numItems =>
    match i.occurrence with
    | .error err => (none, -1, some err)
    | .ok item =>
      if keepOccurrence acc dateFrom dateTo item then
        occurrencesCollect acc dateFrom dateTo rest (resultItems ++ [item]) (numItems + 1)
      else occurrencesCollect acc dateFrom dateTo rest resultItems numItems

/-- The function `GetOccurrences`; `now` is the reading of `time.Now()`. -/
def GetOccurrences (fl : FloatOps) (now : Time) (svc : DynamoDB) (vals : Values) :
    Option (Result OccurrenceInfo) :=
  match occurrencesFilter vals with
  | none => none
  | some filt =>
    match occurrencesDateFrom vals with
    | none => none
    | some dateFrom =>
      match occurrencesDateTo now vals with
      | none => none
      | some dateTo =>
        match occurrencesAcc fl vals with
        | none => none
        | some acc =>
          let proj := ["OccurrenceID", "Date", "Accuracy", "Latitude", "Longitude", "PlantID"]
          match Build filt proj with
          | .error err => some (none, -1, some err)
          | .ok expr =>
            let params : ScanInput :=
              { FilterExpression := expr.Filter, ProjectionExpression := expr.Projection,
                TableName := "Occurrences" }
            match svc.Scan params with
            | .error err => some (none, -1, some err)
            | .ok items => some (occurrencesCollect acc dateFrom dateTo items [] 0)

/-! ## path.Clean and ShiftPath -/

/-- The `lazybuf` of package path, by the bytes written: `buf` holds them at the positions
below `w` (what stands at or above `w` was written earlier and then given up). -/
structure lazybuf where
  buf : List Char
  w : Nat
  deriving DecidableEq, Repr

/-- The method `index`. -/
def lazybuf.index (b : lazybuf) (i : Nat) : Char := b.buf.getD i ' '

/-- The method `append`. -/
def lazybuf.append (b : lazybuf) (c : Char) : lazybuf :=
  { buf := b.buf.take b.w ++ [c], w := b.w + 1 }

/-- The method `string`. -/
def lazybuf.string (b : lazybuf) : List Char := b.buf.take b.w

/-- The inner loop `for out.w > dotdot && out.index(out.w) != '/' { out.w-- }`, as a
function of `out.w`. -/
def backLoop (out : lazybuf) (dotdot : Nat) : Nat → Nat
  | 0 => 0
  | w + 1 =>
    if w + 1 > dotdot && out.index (w + 1) != '/' then backLoop out dotdot w
    else w + 1

/-- The loop `for r < n` of `path.Clean`; `rest` is `path[r:]`. Every turn reads at least
one byte, and `none` is the loop cut short by a lack of fuel. -/
def cleanLoop (rooted : Bool) :
    Nat → List Char → lazybuf → Nat → Option lazybuf
  | _, [], out, _ => some out
  | 0, _ :: _, _, _ => none
  | fuel + 1, c :: t, out, dotdot =>
    if c = '/' then
      -- empty path element
      cleanLoop rooted fuel t out dotdot
    else if c = '.' ∧ (t = [] ∨ t.head? = some '/') then
      -- . element
      cleanLoop rooted fuel t out dotdot
    else if c = '.' ∧ t.head? = some '.' ∧ (t.tail = [] ∨ t.tail.head? = some '/') then
      -- .. element: remove to last /
      if out.w > dotdot then
        cleanLoop rooted fuel t.tail { out with w := backLoop out dotdot (out.w - 1) } dotdot
      else if !rooted then
        let out := if out.w > 0 then out.append '/' else out
        let out := (out.append '.').append '.'
        cleanLoop rooted fuel t.tail out out.w
      else cleanLoop rooted fuel t.tail out dotdot
    else
      -- real path element: add slash if needed, copy element
      let out := if (rooted && out.w != 1) || (!rooted && out.w != 0) then out.append '/' else out
      let out := ((c :: t).takeWhile (fun x => x != '/')).foldl lazybuf.append out
      cleanLoop rooted fuel ((c :: t).dropWhile (fun x => x != '/')) out dotdot

/-- Go's `path.Clean`, on the bytes of the path. -/
def cleanChars (path : List Char) : Option (List Char) :=
  if path = [] then some [ '.']
  else
    let rooted : Bool := path.head? = some '/'
    let out : lazybuf := { buf := [], w := 0 }
    match (if rooted then cleanLoop rooted path.length path.tail (out.append '/') 1
        else cleanLoop rooted path.length path out 0) with
    | none => none
    | some out => if out.w = 0 then some [ '.'] else some out.string

/-- Go's `path.Clean`. -/
def Clean (path : String) : Option String := (cleanChars path.data).map String.mk

/-- Go's `strings.Index(s, "/")`: the position of the first slash, or -1. -/
def indexSlash : List Char → Int
  | [] => -1
  | c :: t => if c = '/' then 0 else (if indexSlash t < 0 then -1 else indexSlash t + 1)

/-- The function `ShiftPath`, on the bytes of the path: `none` is a slice out of range (or
`Clean` cut short). -/
def shiftChars (p : List Char) : Option (List Char × List Char) :=
  match cleanChars ( '/' :: p) with
  | none => none
  | some p =>
    match p with
    | [] => none
    | _ :: p1 =>
      let i : Int := indexSlash p1 + 1
      if i ≤ 0 then some (p1, [ '/'])
      else some ((p.take i.toNat).drop 1, p.drop i.toNat)

/-- The function `ShiftPath`. -/
def ShiftPath (p : String) : Option (String × String) :=
  (shiftChars p.data).map fun ht => (String.mk ht.1, String.mk ht.2)

/-- What the buffer of `Clean` holds on a rooted path: a slash, then nothing or a byte
that is no slash. -/
def RootedBuf (out : lazybuf) : Prop :=
  out.w ≤ out.buf.length ∧
    ∃ rest, out.buf.take out.w = '/' :: rest ∧ rest.head? ≠ some '/'

/-! ## The handlers -/

/-- An incoming request: the method, `req.URL.Path`, `req.URL.Query()` and the outcome of
decoding the body as an `OccurrenceInfo`. -/
structure Request where
  Method : String
  Path : String
  Query : Values
  Body : Except GoError OccurrenceInfo

/-- The string handed to `http.Error`: a literal of the program, or the text
`err.Error()` of an error, which is not rendered here. -/
inductive Message where
  | literal (s : String)
  | errorText (err : GoError)
  deriving DecidableEq, Repr

/-- What a handler wrote as body: nothing, the line that `http.Error` prints (the message
followed by a newline), or the JSON of a list. -/
inductive Payload where
  | empty
  | errorLine (msg : Message)
  | species (items : List PlantInfo)
  | occurrences (items : List OccurrenceInfo)
  deriving DecidableEq, Repr

/-- The response as the handlers leave it. A handler that writes nothing leaves the
status at 200. -/
structure Response where
  Status : Nat
  Header : List (String × String)
  Body : Payload
  deriving DecidableEq, Repr

/-- The response before any handler ran. -/
def Response.fresh : Response := { Status := 200, Header := [], Body := .empty }

/-- The call `res.Header().Set(key, value)`. -/
def Response.setHeader (res : Response) (key value : String) : Response :=
  { res with Header := (key, value) :: res.Header.filter (fun kv => kv.1 != key) }

/-- Go's `http.Error(res, msg, code)`: the two headers, the status, and the message
printed with `fmt.Fprintln`. -/
def httpError (res : Response) (msg : Message) (code : Nat) : Response :=
  { ((res.setHeader "Content-Type" "text/plain; charset=utf-8").setHeader
      "X-Content-Type-Options" "nosniff") with Status := code, Body := .errorLine msg }

/-- The first float that encoding/json refuses among the floats of the occurrences, read
in the order of encoding (item by item; Accuracy, Latitude, Longitude), as
`strconv.FormatFloat` prints it. -/
def firstUnsupported : List OccurrenceInfo → Option String
  | [] => none
  | o :: rest =>
    match [o.Accuracy, o.Latitude, o.Longitude].find? (fun x => !x.isFinite) with
    | some .nan => some "NaN"
    | some (.inf negative) => some (if negative then "-Inf" else "+Inf")
    | _ => firstUnsupported rest

/-- The call `json.Marshal` on a list of occurrences: a float that is not finite is an
UnsupportedValueError. -/
def marshalOccurrences (items : List OccurrenceInfo) : Except GoError Payload :=
  match firstUnsupported items with
  | some str => .error (.unsupportedValue str)
  | none => .ok (.occurrences items)

/-- What the handlers take from their surroundings: the float operations, the reading of
`time.Now()`, and `Plants.AddItem`, whose source is not part of the files at hand. -/
structure Env where
  fl : FloatOps
  now : Time
  AddItem : DynamoDB → OccurrenceInfo → Option GoError

/-- The method `(*SpeciesHandler).ServeHTTP`. -/
def SpeciesHandler.ServeHTTP (svc : DynamoDB) (res : Response) (req : Request) :
    Option Response :=
  match ShiftPath req.Path with
  | none => none
  | some (_, tail) =>
    let req := { req with Path := tail }
    if req.Method = "GET" then
      match ShiftPath req.Path with
      | none => none
      | some (next, _) =>
        if next ≠ "" then some (httpError res (.literal "Not Found") 404)
        else
          match GetPlants svc [req.Query] with
          | none => none
          | some (species, _, err) =>
            match err with
            | some e => some (httpError res (.errorText e) 500)
            | none =>
              match species with
              | none => none
              | some body =>
                some { (res.setHeader "Content-Type" "application/json") with
                  Body := .species body }
    else if req.Method = "POST" then
      some (httpError res (.literal "POST not implemented") 405)
    else some (httpError res (.literal "Only GET and POST are allowed") 405)

/-- The method `(*OccurrenceHandler).ServeHTTP`. -/
def OccurrenceHandler.ServeHTTP (env : Env) (svc : DynamoDB) (res : Response)
    (req : Request) : Option Response :=
  match ShiftPath req.Path with
  | none => none
  | some (head, _) =>
    if head ≠ "" then some (httpError res (.literal "Not Found") 404)
    else
      match req.Body with
      | .error err1 => some (httpError res (.errorText err1) 400)
      | .ok occur =>
        match env.AddItem svc occur with
        | some err2 => some (httpError res (.errorText err2) 500)
        | none => some res

/-- The method `(*OccurrencesHandler).ServeHTTP`. -/
def OccurrencesHandler.ServeHTTP (env : Env) (svc : DynamoDB) (res : Response)
    (req : Request) : Option Response :=
  match ShiftPath req.Path with
  | none => none
  | some (_, tail) =>
    let req := { req with Path := tail }
    if req.Method = "GET" then
      match ShiftPath req.Path with
      | none => none
      | some (next, _) =>
        if next ≠ "" then some (httpError res (.literal "Not Found") 404)
        else
          match GetOccurrences env.fl env.now svc req.Query with
          | none => none
          | some (occurrences, _, err) =>
            match err with
            | some e => some (httpError res (.errorText e) 500)
            | none =>
              match occurrences with
              | none => none
              | some body =>
                match marshalOccurrences body with
                | .error e => some (httpError res (.errorText e) 500)
                | .ok resBody =>
                  some { (res.setHeader "Content-Type" "application/json") with
                    Body := resBody }
    else if req.Method = "POST" then OccurrenceHandler.ServeHTTP env svc res req
    else some (httpError res (.literal "Only GET and POST are allowed") 405)

/-- The method `(*App).ServeHTTP`. -/
def App.ServeHTTP (env : Env) (svc : DynamoDB) (req : Request) : Option Response :=
  let res := Response.fresh.setHeader "Access-Control-Allow-Origin" "*"
  match ShiftPath req.Path with
  | none => none
  | some (head, _) =>
    if head = "species" then SpeciesHandler.ServeHTTP svc res req
    else if head = "occurrences" then OccurrencesHandler.ServeHTTP env svc res req
    else some (httpError res (.literal "Not Found") 404)

/-! ## The record store as a list -/

/-- The attribute `name` of a plant record, as an operand. -/
def plantAttr (p : PlantInfo) (name : String) : Option Operand :=
  if name = "PlantID" then some (.num p.PlantID)
  else if name = "Common" then some (.str p.Common)
  else if name = "Scientific" then some (.str p.Scientific)
  else none

/-- The attribute `name` of an occurrence record, as an operand (the three float
attributes, which no filter of the program names, have none). -/
def occurrenceAttr (o : OccurrenceInfo) (name : String) : Option Operand :=
  if name = "PlantID" then some (.num o.PlantID)
  else if name = "OccurrenceID" then some (.str o.OccurrenceID)
  else if name = "Date" then some (.str o.Date)
  else none

/-- The filter of a scan, evaluated by the store on one record read through `attr` (the
store is an external service; this is its `scan(table, filter, projection)`, which
returns the records that satisfy the one backend predicate). -/
def evalCondition (attr : String → Option Operand) : ConditionBuilder → Bool
  | .unset => true
  | .equal name v => attr name == some v
  | .greaterThan name v =>
    match attr name, v with
    | some (.num a), .num b => decide (a > b)
    | some (.str a), .str b => strGt a b
    | _, _ => false

/-- The record store with an unchanging content, as a client: the store is a list and a
scan of a table returns, in the order of the store, the records of the table that
satisfy the filter, each one an item that unmarshals to itself (and, into the other
struct, to the one attribute the two share, the rest left at zero). -/
def storeSvc (plants : List PlantInfo) (occurrences : List OccurrenceInfo) : DynamoDB :=
  { Scan := fun input =>
      if input.TableName = "Plants" then
        .ok ((plants.filter fun p => evalCondition (plantAttr p) input.FilterExpression).map
          fun p => { plant := .ok p,
                     occurrence := .ok { OccurrenceID := "", Date := "", Accuracy := F64.zero,
                                         Latitude := F64.zero, Longitude := F64.zero,
                                         PlantID := p.PlantID } })
      else if input.TableName = "Occurrences" then
        .ok ((occurrences.filter fun o =>
            evalCondition (occurrenceAttr o) input.FilterExpression).map
          fun o => { plant := .ok { PlantID := o.PlantID, Common := "", Scientific := "" },
                     occurrence := .ok o })
      else .error (.external "ResourceNotFoundException") }

/-- A parameter map as `req.URL.Query()` builds it: every key has at least one value. -/
def WellFormed (vals : Values) : Prop := ∀ kv ∈ vals, kv.2 ≠ []

instance (vals : Values) : Decidable (WellFormed vals) := by
  unfold WellFormed; infer_instance

/-- Float operations for the examples: `ParseFloat` reads a sequence of decimal digits
(and gives 0 on anything else, as on a syntax error), and the division is exact where
the divisor is 1 and gives up (not-a-number) elsewhere. -/
def exampleFloatOps : FloatOps :=
  { ParseFloat := fun s => if s.data.all isDigit then .fin (digitsValue s.data) 0 else F64.zero
    div := fun a b => if b = .fin 1 0 then a else .nan }

/-! ## Examples of inputs -/

/-- A client whose scan returns the given items whatever it is asked. -/
def constSvc (raw : List Item) : DynamoDB := { Scan := fun _ => .ok raw }

/-- An occurrence of plant 3, accuracy 0.5, observed on the given date. -/
def occurrenceOn (date : String) : OccurrenceInfo :=
  { OccurrenceID := "a1", Date := date, Accuracy := .fin 1 (-1), Latitude := .fin 37 0,
    Longitude := .fin (-122) 0, PlantID := 3 }

/-- The scanned item of an occurrence. -/
def itemOf (o : OccurrenceInfo) : Item :=
  { plant := .error (.external "not a plant"), occurrence := .ok o }

/-- The reading of the clock in the examples: 15 June 2020, 12:00:00. -/
def exampleNow : Time := { year := 2020, month := 6, day := 15, sec := 43200 }

/-- The surroundings in the examples; `AddItem` always succeeds. -/
def exampleEnv : Env := { fl := exampleFloatOps, now := exampleNow, AddItem := fun _ _ => none }

/-- A request without a readable body. -/
def requestOf (method path : String) (query : Values) : Request :=
  { Method := method, Path := path, Query := query, Body := .error (.external "EOF") }

/-! ## The species predicate in the words of the specification -/

/-- After the specification: within one map a present `id` gives `PlantID = id` whatever
`common` and `scientific` are, otherwise a present `scientific` gives
`Scientific = value`, otherwise a present `common` gives `Common = value`. -/
def specMapPredicate (val : Values) : Option ConditionBuilder :=
  match val.lookup "id" with
  | some ids =>
    match ids.head? with
    | some s =>
      match Atoi s with
      | .ok n => some (.equal "PlantID" (.num n))
      | .error _ => none
    | none => none
  | none =>
    match val.lookup "scientific" with
    | some l => l.head?.map fun s => ConditionBuilder.equal "Scientific" (.str s)
    | none =>
      match val.lookup "common" with
      | some l => l.head?.map fun s => ConditionBuilder.equal "Common" (.str s)
      | none => none

/-- After the specification: over a sequence of maps, a later map's recognised key
overrides any earlier map's. -/
def specPredicate : List Values → Option ConditionBuilder
  | [] => none
  | val :: rest =>
    match specPredicate rest with
    | some f => some f
    | none => specMapPredicate val

/-- Float operations for an example with `acc`: `ParseFloat` reads a sequence of decimal
digits, and the division by 100 is the exact one where the quotient is a float (the
dividend a multiple of 25), and gives up (not-a-number) elsewhere. -/
def percentFloatOps : FloatOps :=
  { ParseFloat := fun s => if s.data.all isDigit then .fin (digitsValue s.data) 0 else F64.zero
    div := fun a b =>
      match a, b with
      | .fin m e, .fin 100 0 => if m % 25 = 0 then .fin (m / 25) (e - 2) else .nan
      | _, _ => .nan }

/-- An occurrence of plant 3 observed on the given date, of the given accuracy. -/
def occurrenceWith (date : String) (accuracy : F64) : OccurrenceInfo :=
  { OccurrenceID := "a1", Date := date, Accuracy := accuracy, Latitude := .fin 37 0,
    Longitude := .fin (-122) 0, PlantID := 3 }

/-- The parameter map of `?id=3&datefrom=20200101&dateto=20200601&acc=50`. -/
def exampleQuery : Values :=
  [("id", ["3"]), ("datefrom", ["20200101"]), ("dateto", ["20200601"]), ("acc", ["50"])]

/-- Five occurrences: dated on the day of `datefrom`, inside the range with accuracy 0.75,
inside the range with accuracy 0.5, dated on the day of `dateto`, and inside the range
with accuracy 0.875. -/
def exampleOccurrences : List OccurrenceInfo :=
  [occurrenceWith "2020-01-01" (.fin 3 (-2)), occurrenceWith "2020-03-05" (.fin 3 (-2)),
   occurrenceWith "2020-03-06" (.fin 1 (-1)), occurrenceWith "2020-06-01" (.fin 3 (-2)),
   occurrenceWith "2020-04-01" (.fin 7 (-3))]

/-! ## The residual bounds in the words of the specification -/

/-- After the specification: `acc` is a percentage, read as a float and divided by 100 to
give the threshold (the float that `ParseFloat` returns is divided also when it reports
an error); the threshold is 0.0 when `acc` is absent. -/
def specThreshold (fl : FloatOps) (vals : Values) : F64 :=
  match vals.lookup "acc" with
  | some (a :: _) => fl.div (fl.ParseFloat a) (F64.ofInt 100)
  | _ => F64.zero

/-- After the specification: `datefrom` is parsed as `YYYYMMDD`; on parse failure or
absence the lower bound is 1970-01-01. -/
def specDateFrom (vals : Values) : Time :=
  match vals.lookup "datefrom" with
  | some (s :: _) => (parseDate s).getD { year := 1970, month := 1, day := 1, sec := 0 }
  | _ => { year := 1970, month := 1, day := 1, sec := 0 }

/-- After the specification: `dateto` is parsed as `YYYYMMDD`; on parse failure or absence
the upper bound is tomorrow, the current moment plus 24 hours. -/
def specDateTo (now : Time) (vals : Values) : Time :=
  match vals.lookup "dateto" with
  | some (s :: _) => (parseDate s).getD (addDay now)
  | _ => addDay now

/-! # Theorems -/

/-! ## Parameter maps -/

theorem lookup_ne_nil_of_wellFormed {vals : Values} (hwf : WellFormed vals) {k : String}
    {l : List String} (h : vals.lookup k = some l) : l ≠ [] := by
  induction vals with
  | nil => simp at h
  | cons kv rest ih =>
    obtain ⟨k', l'⟩ := kv
    by_cases hk : k = k'
    · subst hk
      simp [List.lookup] at h
      subst h
      exact hwf (k, l') (by simp)
    · have hb : (k == k') = false := by simpa using hk
      simp [List.lookup, hb] at h
      exact ih (fun kv hkv => hwf kv (List.mem_cons_of_mem _ hkv)) h

theorem head?_of_wellFormed {vals : Values} (hwf : WellFormed vals) {k : String}
    {l : List String} (h : vals.lookup k = some l) : ∃ v rest, l = v :: rest := by
  cases l with
  | nil => exact absurd rfl (lookup_ne_nil_of_wellFormed hwf h)
  | cons v rest => exact ⟨v, rest, rfl⟩

theorem occurrencesFilter_isSome {vals : Values} (hwf : WellFormed vals) :
    ∃ filt, occurrencesFilter vals = some filt ∧ filt ≠ .unset := by
  unfold occurrencesFilter
  cases h : vals.lookup "id" with
  | none => simp
  | some l =>
    obtain ⟨v, rest, rfl⟩ := head?_of_wellFormed hwf h
    simp only [List.head?_cons]
    split_ifs <;> simp

theorem occurrencesDateFrom_isSome {vals : Values} (hwf : WellFormed vals) :
    ∃ t, occurrencesDateFrom vals = some t := by
  unfold occurrencesDateFrom
  cases h : vals.lookup "datefrom" with
  | none => simp
  | some l =>
    obtain ⟨v, rest, rfl⟩ := head?_of_wellFormed hwf h
    simp only [List.head?_cons]
    cases parseDate v <;> simp

theorem occurrencesDateTo_isSome (now : Time) {vals : Values} (hwf : WellFormed vals) :
    ∃ t, occurrencesDateTo now vals = some t := by
  unfold occurrencesDateTo
  cases h : vals.lookup "dateto" with
  | none => simp
  | some l =>
    obtain ⟨v, rest, rfl⟩ := head?_of_wellFormed hwf h
    simp only [List.head?_cons]
    cases parseDate v <;> simp

theorem occurrencesAcc_isSome (fl : FloatOps) {vals : Values} (hwf : WellFormed vals) :
    ∃ a, occurrencesAcc fl vals = some a := by
  unfold occurrencesAcc
  cases h : vals.lookup "acc" with
  | none => simp
  | some l =>
    obtain ⟨v, rest, rfl⟩ := head?_of_wellFormed hwf h
    simp

theorem occurrencesFilter_of_unparseable {vals : Values} {v : String} {rest : List String}
    {e : GoError} (hid : vals.lookup "id" = some (v :: rest)) (herr : Atoi v = .error e) :
    occurrencesFilter vals = some (.greaterThan "PlantID" (.num (-1))) := by
  simp [occurrencesFilter, hid, herr]

theorem Build_of_ne_unset {filt : ConditionBuilder} (h : filt ≠ .unset) (proj : List String) :
    Build filt proj = .ok { Filter := filt, Projection := proj } := by
  cases filt <;> simp_all [Build]

/-! ## The loop of GetOccurrences -/

theorem occurrencesCollect_decodable (acc : F64) (dateFrom dateTo : Time)
    (raw : List Item) (items : List OccurrenceInfo)
    (hdec : raw.map Item.occurrence = items.map Except.ok)
    (resultItems : List OccurrenceInfo) (numItems : Int) :
    occurrencesCollect acc dateFrom dateTo raw resultItems numItems =
      (some (resultItems ++ items.filter (keepOccurrence acc dateFrom dateTo)),
        numItems + ((items.filter (keepOccurrence acc dateFrom dateTo)).length : Int), none) := by
  induction raw generalizing items resultItems numItems with
  | nil =>
    cases items with
    | nil => simp [occurrencesCollect]
    | cons a l => simp at hdec
  | cons i rest ih =>
    cases items with
    | nil => simp at hdec
    | cons a l =>
      simp only [List.map_cons, List.cons.injEq] at hdec
      obtain ⟨hi, hrest⟩ := hdec
      unfold occurrencesCollect
      rw [hi]
      by_cases hk : keepOccurrence acc dateFrom dateTo a = true
      · simp only [hk, if_true, List.filter_cons_of_pos]
        rw [ih l hrest]
        simp only [List.append_assoc, List.singleton_append, List.length_cons, Nat.cast_add,
          Nat.cast_one]
        congr 2
        ring
      · rw [List.filter_cons_of_neg hk]
        simp only [hk]
        exact ih l hrest resultItems numItems

theorem charsLt_irrefl (a : List Char) : charsLt a a = false := by
  induction a with
  | nil => rfl
  | cons c t ih => simp [charsLt, ih]

/-! ## C1 -/

theorem occurrencesAcc_eq_spec (fl : FloatOps) {vals : Values} (hwf : WellFormed vals) :
    occurrencesAcc fl vals = some (specThreshold fl vals) := by
  unfold occurrencesAcc specThreshold
  cases h : vals.lookup "acc" with
  | none => rfl
  | some l =>
    obtain ⟨v, rest, rfl⟩ := head?_of_wellFormed hwf h
    rfl

theorem occurrencesDateFrom_eq_spec {vals : Values} (hwf : WellFormed vals) :
    occurrencesDateFrom vals = some (specDateFrom vals) := by
  unfold occurrencesDateFrom specDateFrom
  cases h : vals.lookup "datefrom" with
  | none => rfl
  | some l =>
    obtain ⟨v, rest, rfl⟩ := head?_of_wellFormed hwf h
    simp only [List.head?_cons]
    cases parseDate v <;> rfl

theorem occurrencesDateTo_eq_spec (now : Time) {vals : Values} (hwf : WellFormed vals) :
    occurrencesDateTo now vals = some (specDateTo now vals) := by
  unfold occurrencesDateTo specDateTo
  cases h : vals.lookup "dateto" with
  | none => rfl
  | some l =>
    obtain ⟨v, rest, rfl⟩ := head?_of_wellFormed hwf h
    simp only [List.head?_cons]
    cases parseDate v <;> rfl

/-- C1: for a parameter map (every key with a value) and a scan that returns items which
all decode, `GetOccurrences` returns exactly the sub-list, in scan order, of the items
with `Accuracy > threshold`, `Date > dateFrom` and `Date < dateTo`, where the threshold
is the value of `acc` divided by 100 (0.0 without `acc`) and the bounds are the dates
given as `datefrom` and `dateto` (1970-01-01 and the day after the call when absent or
unparseable), compared as strings in their `YYYY-MM-DD` rendering; the count is the
length of that list, and no returned item has `Date` equal to the rendering of
`dateFrom`. -/
theorem GetOccurrences_residual_filter (fl : FloatOps) (now : Time) (svc : DynamoDB)
    (vals : Values) (raw : List Item) (items : List OccurrenceInfo)
    (hwf : WellFormed vals)
    (hscan : ∀ filt, occurrencesFilter vals = some filt →
      svc.Scan { FilterExpression := filt,
                 ProjectionExpression :=
                   ["OccurrenceID", "Date", "Accuracy", "Latitude", "Longitude", "PlantID"],
                 TableName := "Occurrences" } = .ok raw)
    (hdec : raw.map Item.occurrence = items.map Except.ok) :
    GetOccurrences fl now svc vals =
      some (some (items.filter fun it => F64.gt it.Accuracy (specThreshold fl vals)
              && strGt it.Date (formatDate (specDateFrom vals))
              && strLt it.Date (formatDate (specDateTo now vals))),
            ((items.filter fun it => F64.gt it.Accuracy (specThreshold fl vals)
              && strGt it.Date (formatDate (specDateFrom vals))
              && strLt it.Date (formatDate (specDateTo now vals))).length : Int),
            none) ∧
    ∀ it ∈ items.filter (fun it => F64.gt it.Accuracy (specThreshold fl vals)
        && strGt it.Date (formatDate (specDateFrom vals))
        && strLt it.Date (formatDate (specDateTo now vals))),
      it.Date ≠ formatDate (specDateFrom vals) := by
  obtain ⟨filt, hfilt, hne⟩ := occurrencesFilter_isSome hwf
  constructor
  · unfold GetOccurrences
    simp only [hfilt, occurrencesDateFrom_eq_spec hwf, occurrencesDateTo_eq_spec now hwf,
      occurrencesAcc_eq_spec fl hwf, Build_of_ne_unset hne, hscan filt hfilt]
    rw [occurrencesCollect_decodable _ _ _ raw items hdec]
    have hk : keepOccurrence (specThreshold fl vals) (specDateFrom vals) (specDateTo now vals)
        = fun it => F64.gt it.Accuracy (specThreshold fl vals)
          && strGt it.Date (formatDate (specDateFrom vals))
          && strLt it.Date (formatDate (specDateTo now vals)) := by
      funext it; rfl
    simp [hk]
  · intro it hit heq
    simp only [List.mem_filter, Bool.and_eq_true] at hit
    have h2 := hit.2.1.2
    rw [heq] at h2
    simp [strGt, strLt, charsLt_irrefl] at h2

/-- C1 at an example: `datefrom=20200101`, `dateto=20200601` and `acc=50`, five
occurrences scanned: one dated on the very day of `datefrom`, one on the day of `dateto`
and one of accuracy 0.5, the threshold itself, are left out; the two others, of accuracy
0.75 and 0.875, are returned. -/
theorem GetOccurrences_residual_filter_witness :
    WellFormed exampleQuery ∧
    specThreshold percentFloatOps exampleQuery = .fin 2 (-2) ∧
    formatDate (specDateFrom exampleQuery) = "2020-01-01" ∧
    formatDate (specDateTo exampleNow exampleQuery) = "2020-06-01" ∧
    GetOccurrences percentFloatOps exampleNow (constSvc (exampleOccurrences.map itemOf))
        exampleQuery
      = some (some [occurrenceWith "2020-03-05" (.fin 3 (-2)),
          occurrenceWith "2020-04-01" (.fin 7 (-3))], 2, none) :=
  ⟨by decide, by decide, by decide, by decide,
    (GetOccurrences_residual_filter percentFloatOps exampleNow
      (constSvc (exampleOccurrences.map itemOf)) exampleQuery
      (exampleOccurrences.map itemOf) exampleOccurrences
      (by decide) (fun _ _ => rfl) rfl).1.trans (by decide)⟩

/-! ## C2 -/

/-- C2, as stated, fails at `id=-5`: the value parses to the negative integer -5 and the
filter built is the equality `PlantID = -5`, not `PlantID > -1`. -/
theorem occurrencesFilter_negative_id_counterexample :
    Atoi "-5" = .ok (-5) ∧
    occurrencesFilter [("id", ["-5"])] = some (.equal "PlantID" (.num (-5))) ∧
    occurrencesFilter [("id", ["-5"])] ≠ some (.greaterThan "PlantID" (.num (-1))) := by
  decide

/-- C2, amended: the filter built by `GetOccurrences` is `PlantID > -1` when `id` is
absent, when its first value does not parse, and when it parses to -1; it is the equality
`PlantID = n` when the first value parses to any other integer `n`, negative ones
included. -/
theorem occurrencesFilter_cases (vals : Values) :
    (vals.lookup "id" = none →
      occurrencesFilter vals = some (.greaterThan "PlantID" (.num (-1)))) ∧
    (∀ v rest, vals.lookup "id" = some (v :: rest) →
      (∀ n, Atoi v = .ok n → n ≠ -1 →
        occurrencesFilter vals = some (.equal "PlantID" (.num n))) ∧
      (Atoi v = .ok (-1) →
        occurrencesFilter vals = some (.greaterThan "PlantID" (.num (-1)))) ∧
      (∀ e, Atoi v = .error e →
        occurrencesFilter vals = some (.greaterThan "PlantID" (.num (-1))))) := by
  refine ⟨fun h => ?_, fun v rest h => ⟨fun n hn hne => ?_, fun hn => ?_, fun e he => ?_⟩⟩
  · simp [occurrencesFilter, h]
  · simp [occurrencesFilter, h, hn, hne]
  · simp [occurrencesFilter, h, hn]
  · simp [occurrencesFilter, h, he]

/-- C2 amended, at examples: `id=7`, `id=-5`, `id=-1`, `id=abc` and no `id`. -/
theorem occurrencesFilter_cases_witness :
    (List.lookup "id" [("id", ["7"])] = some ["7"] ∧ Atoi "7" = .ok 7 ∧
      occurrencesFilter [("id", ["7"])] = some (.equal "PlantID" (.num 7))) ∧
    (List.lookup "id" [("id", ["-5"])] = some ["-5"] ∧ Atoi "-5" = .ok (-5) ∧
      occurrencesFilter [("id", ["-5"])] = some (.equal "PlantID" (.num (-5)))) ∧
    (List.lookup "id" [("id", ["-1"])] = some ["-1"] ∧ Atoi "-1" = .ok (-1) ∧
      occurrencesFilter [("id", ["-1"])] = some (.greaterThan "PlantID" (.num (-1)))) ∧
    (List.lookup "id" [("id", ["abc"])] = some ["abc"] ∧
      Atoi "abc" = .error (.numError "Atoi" "abc" true) ∧
      occurrencesFilter [("id", ["abc"])] = some (.greaterThan "PlantID" (.num (-1)))) ∧
    (List.lookup "id" [("acc", ["50"])] = none ∧
      occurrencesFilter [("acc", ["50"])] = some (.greaterThan "PlantID" (.num (-1)))) :=
  ⟨⟨rfl, rfl, ((occurrencesFilter_cases [("id", ["7"])]).2 "7" [] rfl).1 7 rfl (by decide)⟩,
   ⟨rfl, rfl,
     ((occurrencesFilter_cases [("id", ["-5"])]).2 "-5" [] rfl).1 (-5) rfl (by decide)⟩,
   ⟨rfl, rfl, ((occurrencesFilter_cases [("id", ["-1"])]).2 "-1" [] rfl).2.1 rfl⟩,
   ⟨rfl, rfl, ((occurrencesFilter_cases [("id", ["abc"])]).2 "abc" [] rfl).2.2 _ rfl⟩,
   ⟨rfl, (occurrencesFilter_cases [("acc", ["50"])]).1 rfl⟩⟩

/-! ## C3 -/

/-- C3, as stated, fails on a store of two occurrences of accuracy 0.5, one observed in
1969 and one dated the day after the call: with no parameter, neither is returned. -/
theorem GetOccurrences_empty_params_counterexample :
    F64.gt (occurrenceOn "1969-07-20").Accuracy F64.zero = true ∧
    F64.gt (occurrenceOn "2020-06-16").Accuracy F64.zero = true ∧
    GetOccurrences exampleFloatOps exampleNow
        (storeSvc [] [occurrenceOn "1969-07-20", occurrenceOn "2020-06-16"]) []
      = some (some [], 0, none) := by
  decide

/-- C3, amended: with an empty parameter map, `GetOccurrences` over the store returns, in
store order, exactly the records with `PlantID > -1`, `Accuracy > 0`,
`Date > "1970-01-01"` and `Date <` the rendering of the day after the call, and their
number. -/
theorem GetOccurrences_empty_params (fl : FloatOps) (now : Time) (plants : List PlantInfo)
    (store : List OccurrenceInfo) :
    GetOccurrences fl now (storeSvc plants store) [] =
      some (some (store.filter fun o => decide (o.PlantID > -1) && F64.gt o.Accuracy F64.zero
              && strGt o.Date "1970-01-01" && strLt o.Date (formatDate (addDay now))),
            ((store.filter fun o => decide (o.PlantID > -1) && F64.gt o.Accuracy F64.zero
              && strGt o.Date "1970-01-01" && strLt o.Date (formatDate (addDay now))).length
              : Int),
            none) := by
  have hfmt : formatDate epoch = "1970-01-01" := by decide
  have hk : keepOccurrence F64.zero epoch (addDay now) = fun it => F64.gt it.Accuracy F64.zero
      && strGt it.Date "1970-01-01" && strLt it.Date (formatDate (addDay now)) := by
    funext it; simp [keepOccurrence, hfmt]
  have hev : (fun o : OccurrenceInfo =>
      evalCondition (occurrenceAttr o) (.greaterThan "PlantID" (.num (-1))))
      = fun o => decide (o.PlantID > -1) := by
    funext o; simp [evalCondition, occurrenceAttr]
  have h1 : occurrencesFilter [] = some (.greaterThan "PlantID" (.num (-1))) := rfl
  have h2 : occurrencesDateFrom [] = some epoch := rfl
  have h3 : occurrencesDateTo now [] = some (addDay now) := rfl
  have h4 : occurrencesAcc fl [] = some F64.zero := rfl
  have h5 : (storeSvc plants store).Scan
      { FilterExpression := .greaterThan "PlantID" (.num (-1)),
        ProjectionExpression :=
          ["OccurrenceID", "Date", "Accuracy", "Latitude", "Longitude", "PlantID"],
        TableName := "Occurrences" }
      = .ok ((store.filter fun o => evalCondition (occurrenceAttr o)
          (.greaterThan "PlantID" (.num (-1)))).map
          fun o => { plant := .ok { PlantID := o.PlantID, Common := "", Scientific := "" },
                     occurrence := .ok o }) := by
    simp [storeSvc]
  unfold GetOccurrences
  simp only [h1, h2, h3, h4, Build, h5]
  rw [occurrencesCollect_decodable F64.zero epoch (addDay now) _
    (store.filter fun o => evalCondition (occurrenceAttr o)
      (.greaterThan "PlantID" (.num (-1)))) (by simp [List.map_map, Function.comp_def])]
  simp [hk, hev, List.filter_filter, Bool.and_assoc, Bool.and_comm, Bool.and_left_comm]

/-! ## The loop of GetPlants -/

theorem plantsStep_of_unparseable {val : Values} (hwf : WellFormed val) {v : String}
    {rest : List String} {e : GoError} (hid : val.lookup "id" = some (v :: rest))
    (herr : Atoi v = .error e) (filt : ConditionBuilder) :
    plantsStep val filt = some (.error e) := by
  unfold plantsStep
  cases hc : val.lookup "common" with
  | none =>
    cases hs : val.lookup "scientific" with
    | none => simp [hid, herr]
    | some l =>
      obtain ⟨x, xs, rfl⟩ := head?_of_wellFormed hwf hs
      simp [hid, herr]
  | some l =>
    obtain ⟨y, ys, rfl⟩ := head?_of_wellFormed hwf hc
    cases hs : val.lookup "scientific" with
    | none => simp [hid, herr]
    | some l =>
      obtain ⟨x, xs, rfl⟩ := head?_of_wellFormed hwf hs
      simp [hid, herr]

theorem plantsStep_eq_spec {val : Values} (hwf : WellFormed val)
    (hid : ∀ v rest, val.lookup "id" = some (v :: rest) → ∃ n, Atoi v = .ok n)
    (filt : ConditionBuilder) :
    plantsStep val filt = some (.ok ((specMapPredicate val).getD filt)) := by
  unfold plantsStep specMapPredicate
  cases hi : val.lookup "id" with
  | some l =>
    obtain ⟨v, vs, rfl⟩ := head?_of_wellFormed hwf hi
    obtain ⟨n, hn⟩ := hid v vs hi
    cases hc : val.lookup "common" with
    | none =>
      cases hs : val.lookup "scientific" with
      | none => simp [hn]
      | some l =>
        obtain ⟨x, xs, rfl⟩ := head?_of_wellFormed hwf hs
        simp [hn]
    | some l =>
      obtain ⟨y, ys, rfl⟩ := head?_of_wellFormed hwf hc
      cases hs : val.lookup "scientific" with
      | none => simp [hn]
      | some l =>
        obtain ⟨x, xs, rfl⟩ := head?_of_wellFormed hwf hs
        simp [hn]
  | none =>
    cases hc : val.lookup "common" with
    | none =>
      cases hs : val.lookup "scientific" with
      | none => simp
      | some l =>
        obtain ⟨x, xs, rfl⟩ := head?_of_wellFormed hwf hs
        simp
    | some l =>
      obtain ⟨y, ys, rfl⟩ := head?_of_wellFormed hwf hc
      cases hs : val.lookup "scientific" with
      | none => simp
      | some l =>
        obtain ⟨x, xs, rfl⟩ := head?_of_wellFormed hwf hs
        simp

theorem plantsLoop_eq_spec (vals : List Values) (hwf : ∀ val ∈ vals, WellFormed val)
    (hid : ∀ val ∈ vals, ∀ v rest, val.lookup "id" = some (v :: rest) → ∃ n, Atoi v = .ok n)
    (filt : ConditionBuilder) :
    plantsLoop vals filt = some (.ok ((specPredicate vals).getD filt)) := by
  induction vals generalizing filt with
  | nil => simp [plantsLoop, specPredicate]
  | cons val rest ih =>
    have hwf' : ∀ val ∈ rest, WellFormed val := fun x hx => hwf x (List.mem_cons_of_mem _ hx)
    have hid' : ∀ val ∈ rest, ∀ v r, val.lookup "id" = some (v :: r) → ∃ n, Atoi v = .ok n :=
      fun x hx => hid x (List.mem_cons_of_mem _ hx)
    unfold plantsLoop
    rw [plantsStep_eq_spec (hwf val (List.mem_cons_self _ _)) (hid val (List.mem_cons_self _ _))]
    simp only
    rw [ih hwf' hid']
    simp only [specPredicate]
    cases specPredicate rest <;> simp

theorem GetPlants_of_unparseable (svc : DynamoDB) {vals : Values} (hwf : WellFormed vals)
    {v : String} {rest : List String} {e : GoError} (hid : vals.lookup "id" = some (v :: rest))
    (herr : Atoi v = .error e) :
    GetPlants svc [vals] = some (none, -1, some e) := by
  have hne : vals ≠ [] := by
    rintro rfl
    simp at hid
  have hlen : (vals.length == 0) = false := by
    cases vals with
    | nil => exact absurd rfl hne
    | cons a l => rfl
  unfold GetPlants plantsFilter
  simp [hlen, plantsLoop, plantsStep_of_unparseable hwf hid herr]

/-! ## C5 -/

/-- A map that is not empty and holds none of the three keys leaves the condition unset,
and `GetPlants` returns the error of `Build`. -/
theorem GetPlants_of_no_recognised_key (svc : DynamoDB) {vals : Values} (hne : vals ≠ [])
    (hc : vals.lookup "common" = none) (hs : vals.lookup "scientific" = none)
    (hi : vals.lookup "id" = none) :
    GetPlants svc [vals]
      = some (none, -1, some (.unsetParameter "buildTree" "ConditionBuilder")) := by
  have hlen : (vals.length == 0) = false := by
    cases vals with
    | nil => exact absurd rfl hne
    | cons a l => rfl
  unfold GetPlants plantsFilter
  simp [hlen, plantsLoop, plantsStep, hc, hs, hi, Build]

/-- C5: with the empty map the filter of `GetPlants` is the all-records predicate
`PlantID > -1`; at the map `foo=bar`, which holds none of the keys common, scientific and
id, no condition is set, building the expression fails and `GetPlants` returns that
error instead of the scanned species. -/
theorem GetPlants_unrecognised_key (svc : DynamoDB) :
    plantsFilter [[]] = some (.ok (.greaterThan "PlantID" (.num (-1)))) ∧
    plantsFilter [[("foo", ["bar"])]] = some (.ok .unset) ∧
    GetPlants svc [[("foo", ["bar"])]]
      = some (none, -1, some (.unsetParameter "buildTree" "ConditionBuilder")) :=
  ⟨rfl, rfl, rfl⟩

/-! ## C6 -/

/-- C6: for a non-empty sequence of parameter maps (every key with a value, every first
`id` value an integer), when the specification's rule (last map with a recognised key;
within it `id` over `scientific` over `common`) picks a predicate, the filter built by
`GetPlants` is that predicate. -/
theorem plantsFilter_last_applied (vals : List Values) (f : ConditionBuilder)
    (hne : vals ≠ []) (hwf : ∀ val ∈ vals, WellFormed val)
    (hid : ∀ val ∈ vals, ∀ v rest, val.lookup "id" = some (v :: rest) → ∃ n, Atoi v = .ok n)
    (hspec : specPredicate vals = some f) :
    plantsFilter vals = some (.ok f) := by
  have hloop := plantsLoop_eq_spec vals hwf hid .unset
  rw [hspec] at hloop
  unfold plantsFilter
  split_ifs with hlen
  · cases vals with
    | nil => exact absurd rfl hne
    | cons v rest =>
      simp only [List.head?_cons]
      split_ifs with hv
      · have hv' : v = [] := by simpa using hv
        have hrest : rest = [] := by
          simp only [List.length_cons] at hlen
          exact List.length_eq_zero.mp (by omega)
        subst hv' hrest
        simp [specPredicate, specMapPredicate] at hspec
      · simpa using hloop
  · simpa using hloop

/-- C6 at an example: the first map has `common` and `id`, the second `scientific` and
`common`; the predicate is the second map's `Scientific = Quercus alba`. -/
theorem plantsFilter_last_applied_witness :
    ([[("common", ["oak"]), ("id", ["4"])],
      [("scientific", ["Quercus alba"]), ("common", ["white oak"])]] : List Values) ≠ [] ∧
    specPredicate [[("common", ["oak"]), ("id", ["4"])],
      [("scientific", ["Quercus alba"]), ("common", ["white oak"])]]
      = some (.equal "Scientific" (.str "Quercus alba")) ∧
    plantsFilter [[("common", ["oak"]), ("id", ["4"])],
      [("scientific", ["Quercus alba"]), ("common", ["white oak"])]]
      = some (.ok (.equal "Scientific" (.str "Quercus alba"))) :=
  ⟨by decide, by decide,
    plantsFilter_last_applied
      [[("common", ["oak"]), ("id", ["4"])],
        [("scientific", ["Quercus alba"]), ("common", ["white oak"])]]
      (.equal "Scientific" (.str "Quercus alba")) (by decide) (by decide)
      (by
        intro val hval v rest h
        simp only [List.mem_cons, List.mem_singleton, List.not_mem_nil, or_false] at hval
        rcases hval with rfl | rfl
        · simp [List.lookup] at h
          exact ⟨4, by rw [← h.1]; rfl⟩
        · simp [List.lookup] at h)
      (by decide)⟩

/-! ## C10 -/

theorem decodable_items (raw : List Item) (h : ∀ i ∈ raw, ∃ o, i.occurrence = .ok o) :
    ∃ items : List OccurrenceInfo, raw.map Item.occurrence = items.map Except.ok := by
  induction raw with
  | nil => exact ⟨[], rfl⟩
  | cons i rest ih =>
    obtain ⟨o, ho⟩ := h i (List.mem_cons_self _ _)
    obtain ⟨items, hitems⟩ := ih (fun j hj => h j (List.mem_cons_of_mem _ hj))
    exact ⟨o :: items, by simp [ho, hitems]⟩

/-- C10: for a parameter map (every key with a value) whose first `id` value is not an
integer, `GetOccurrences` builds the filter `PlantID > -1` and goes on to the scan with
it: its result is the scan's error or the outcome of the loop over the scanned items, and
it carries no error when the scan succeeds and every item decodes. `GetPlants`, on the
same map, returns the error of `Atoi`. -/
theorem GetOccurrences_unparseable_id (fl : FloatOps) (now : Time) (svc : DynamoDB)
    (vals : Values) (v : String) (rest : List String) (e : GoError)
    (hwf : WellFormed vals) (hid : vals.lookup "id" = some (v :: rest))
    (herr : Atoi v = .error e) :
    occurrencesFilter vals = some (.greaterThan "PlantID" (.num (-1))) ∧
    (∃ acc dateFrom dateTo,
      occurrencesAcc fl vals = some acc ∧ occurrencesDateFrom vals = some dateFrom ∧
      occurrencesDateTo now vals = some dateTo ∧
      GetOccurrences fl now svc vals =
        match svc.Scan { FilterExpression := .greaterThan "PlantID" (.num (-1)),
                         ProjectionExpression :=
                           ["OccurrenceID", "Date", "Accuracy", "Latitude", "Longitude",
                             "PlantID"],
                         TableName := "Occurrences" } with
        | .error err => some (none, -1, some err)
        | .ok items => some (occurrencesCollect acc dateFrom dateTo items [] 0)) ∧
    (∀ raw, svc.Scan { FilterExpression := .greaterThan "PlantID" (.num (-1)),
                       ProjectionExpression :=
                         ["OccurrenceID", "Date", "Accuracy", "Latitude", "Longitude",
                           "PlantID"],
                       TableName := "Occurrences" } = .ok raw →
      (∀ i ∈ raw, ∃ o, i.occurrence = .ok o) →
      ∃ kept n, GetOccurrences fl now svc vals = some (some kept, n, none)) ∧
    GetPlants svc [vals] = some (none, -1, some e) := by
  have hfilt : occurrencesFilter vals = some (.greaterThan "PlantID" (.num (-1))) :=
    occurrencesFilter_of_unparseable hid herr
  obtain ⟨dateFrom, hfrom⟩ := occurrencesDateFrom_isSome hwf
  obtain ⟨dateTo, hto⟩ := occurrencesDateTo_isSome now hwf
  obtain ⟨acc, hacc⟩ := occurrencesAcc_isSome fl hwf
  have hget : GetOccurrences fl now svc vals =
      match svc.Scan { FilterExpression := .greaterThan "PlantID" (.num (-1)),
                       ProjectionExpression :=
                         ["OccurrenceID", "Date", "Accuracy", "Latitude", "Longitude",
                           "PlantID"],
                       TableName := "Occurrences" } with
      | .error err => some (none, -1, some err)
      | .ok items => some (occurrencesCollect acc dateFrom dateTo items [] 0) := by
    unfold GetOccurrences
    simp only [hfilt, hfrom, hto, hacc, Build]
  refine ⟨hfilt, ⟨acc, dateFrom, dateTo, hacc, hfrom, hto, hget⟩, ?_,
    GetPlants_of_unparseable svc hwf hid herr⟩
  intro raw hscan hdec
  obtain ⟨items, hitems⟩ := decodable_items raw hdec
  rw [hget, hscan]
  simp only
  rw [occurrencesCollect_decodable acc dateFrom dateTo raw items hitems]
  exact ⟨_, _, rfl⟩

/-- C10 at the example `id=abc`, over a store of one occurrence. -/
theorem GetOccurrences_unparseable_id_witness :
    WellFormed [("id", ["abc"])] ∧
    Atoi "abc" = .error (.numError "Atoi" "abc" true) ∧
    occurrencesFilter [("id", ["abc"])] = some (.greaterThan "PlantID" (.num (-1))) ∧
    GetOccurrences exampleFloatOps exampleNow (storeSvc [] [occurrenceOn "2020-03-05"])
      [("id", ["abc"])] = some (some [occurrenceOn "2020-03-05"], 1, none) ∧
    GetPlants (storeSvc [] [occurrenceOn "2020-03-05"]) [[("id", ["abc"])]]
      = some (none, -1, some (.numError "Atoi" "abc" true)) :=
  ⟨by decide, rfl,
    (GetOccurrences_unparseable_id exampleFloatOps exampleNow
      (storeSvc [] [occurrenceOn "2020-03-05"]) [("id", ["abc"])] "abc" []
      (.numError "Atoi" "abc" true) (by decide) rfl rfl).1,
    by decide,
    (GetOccurrences_unparseable_id exampleFloatOps exampleNow
      (storeSvc [] [occurrenceOn "2020-03-05"]) [("id", ["abc"])] "abc" []
      (.numError "Atoi" "abc" true) (by decide) rfl rfl).2.2.2⟩

/-! ## path.Clean on a rooted path -/

theorem RootedBuf.one_le {out : lazybuf} (h : RootedBuf out) : 1 ≤ out.w := by
  obtain ⟨hlen, rest, hrest, _⟩ := h
  have := congrArg List.length hrest
  simp only [List.length_take, List.length_cons] at this
  omega

theorem RootedBuf.append {out : lazybuf} (h : RootedBuf out) {c : Char}
    (hc : out.w = 1 → c ≠ '/') : RootedBuf (out.append c) := by
  obtain ⟨hlen, rest, hrest, hhead⟩ := h
  have hl : (out.buf.take out.w).length = out.w := by
    simp only [List.length_take]; omega
  refine ⟨by simp only [lazybuf.append, List.length_append, hl, List.length_singleton,
    le_refl], rest ++ [c], ?_, ?_⟩
  · simp only [lazybuf.append]
    rw [List.take_of_length_le (by simp only [List.length_append, hl, List.length_singleton,
      le_refl]), hrest]
    rfl
  · cases rest with
    | nil =>
      have hw : out.w = 1 := by
        rw [hrest] at hl
        simpa using hl.symm
      simpa using hc hw
    | cons x xs => simpa using hhead

theorem RootedBuf.foldl_append {out : lazybuf} (h : RootedBuf out) (elem : List Char)
    (helem : ∀ x ∈ elem, x ≠ '/') : RootedBuf (elem.foldl lazybuf.append out) := by
  induction elem generalizing out with
  | nil => exact h
  | cons x xs ih =>
    simp only [List.foldl_cons]
    exact ih (h.append (fun _ => helem x (List.mem_cons_self _ _)))
      (fun y hy => helem y (List.mem_cons_of_mem _ hy))

theorem RootedBuf.truncate {out : lazybuf} (h : RootedBuf out) {w : Nat} (h1 : 1 ≤ w)
    (h2 : w ≤ out.w) : RootedBuf { out with w := w } := by
  obtain ⟨hlen, rest, hrest, hhead⟩ := h
  refine ⟨le_trans h2 hlen, rest.take (w - 1), ?_, ?_⟩
  · have : out.buf.take w = (out.buf.take out.w).take w := by
      rw [List.take_take, Nat.min_eq_left h2]
    show out.buf.take w = _
    rw [this, hrest]
    obtain ⟨k, rfl⟩ : ∃ k, w = k + 1 := ⟨w - 1, by omega⟩
    simp
  · cases rest with
    | nil => simp
    | cons x xs =>
      cases hk : w - 1 with
      | zero => simp
      | succ k => simpa using hhead

theorem backLoop_le (out : lazybuf) (dotdot : Nat) (n : Nat) : backLoop out dotdot n ≤ n := by
  induction n with
  | zero => simp [backLoop]
  | succ n ih =>
    unfold backLoop
    split_ifs
    · exact Nat.le_succ_of_le ih
    · exact le_refl _

theorem le_backLoop (out : lazybuf) (dotdot : Nat) (n : Nat) (h : dotdot ≤ n) :
    dotdot ≤ backLoop out dotdot n := by
  induction n with
  | zero => simpa [backLoop] using h
  | succ n ih =>
    unfold backLoop
    split_ifs with hc
    · simp only [gt_iff_lt, Bool.and_eq_true, decide_eq_true_eq] at hc
      exact ih (by omega)
    · exact h

theorem cleanLoop_nil (rooted : Bool) (fuel : Nat) (out : lazybuf) (dotdot : Nat) :
    cleanLoop rooted fuel [] out dotdot = some out := by
  cases fuel <;> rfl

theorem length_dropWhile_lt (c : Char) (t : List Char) (hc : c ≠ '/') :
    ((c :: t).dropWhile (fun x => x != '/')).length ≤ t.length := by
  have h : (c != '/') = true := by simpa using hc
  simp only [List.dropWhile, h]
  exact (List.dropWhile_suffix _).length_le

theorem mem_takeWhile_ne (l : List Char) : ∀ x ∈ l.takeWhile (fun x => x != '/'), x ≠ '/' := by
  intro x hx
  have := List.mem_takeWhile_imp hx
  simpa using this

/-- On a rooted path the loop of `Clean` runs to its end within a fuel of the length of
what is left to read, and keeps the shape of the buffer. -/
theorem cleanLoop_rooted (fuel : Nat) : ∀ (rest : List Char) (out : lazybuf),
    rest.length ≤ fuel → RootedBuf out →
    ∃ out', cleanLoop true fuel rest out 1 = some out' ∧ RootedBuf out' := by
  induction fuel with
  | zero =>
    intro rest out hlen hout
    have : rest = [] := List.length_eq_zero.mp (by omega)
    subst this
    exact ⟨out, rfl, hout⟩
  | succ fuel ih =>
    intro rest out hlen hout
    cases rest with
    | nil => exact ⟨out, rfl, hout⟩
    | cons c t =>
      have ht : t.length ≤ fuel := by simpa using hlen
      by_cases h1 : c = '/'
      · rw [cleanLoop, if_pos h1]
        exact ih t out ht hout
      by_cases h2 : c = '.' ∧ (t = [] ∨ t.head? = some '/')
      · rw [cleanLoop, if_neg h1, if_pos h2]
        exact ih t out ht hout
      by_cases h3 : c = '.' ∧ t.head? = some '.' ∧ (t.tail = [] ∨ t.tail.head? = some '/')
      · rw [cleanLoop, if_neg h1, if_neg h2, if_pos h3]
        have htl : t.tail.length ≤ fuel := by
          simp only [List.length_tail]; omega
        have hone := hout.one_le
        by_cases h4 : out.w > 1
        · rw [if_pos h4]
          exact ih t.tail _ htl
            (hout.truncate (le_backLoop out 1 (out.w - 1) (by omega))
              (le_trans (backLoop_le out 1 (out.w - 1)) (by omega)))
        · rw [if_neg h4]
          simp only [Bool.not_true, Bool.false_eq_true, if_false]
          exact ih t.tail out htl hout
      · rw [cleanLoop, if_neg h1, if_neg h2, if_neg h3]
        have hdrop := length_dropWhile_lt c t h1
        refine ih _ _ (le_trans hdrop ht) ?_
        apply RootedBuf.foldl_append _ _ (mem_takeWhile_ne _)
        by_cases hw : out.w = 1
        · simp only [hw, bne_self_eq_false, Bool.and_false, Bool.not_true, Bool.false_and,
            Bool.or_self, Bool.false_eq_true, if_false]
          exact hout
        · have hb : (out.w != 1) = true := by simpa using hw
          simp only [hb, Bool.and_self, Bool.true_or, if_true]
          exact hout.append (fun h => absurd h hw)

/-- Cleaning a path that starts with a slash gives a slash, then nothing or a byte that
is no slash. -/
theorem cleanChars_rooted (p : List Char) :
    ∃ rest, cleanChars ( '/' :: p) = some ( '/' :: rest) ∧ rest.head? ≠ some '/' := by
  have hinit : RootedBuf (lazybuf.append { buf := [], w := 0 } '/') :=
    ⟨by simp [lazybuf.append], [], by simp [lazybuf.append], by simp⟩
  obtain ⟨out, hout, hinv⟩ := cleanLoop_rooted ( '/' :: p).length p _
    (by simp) hinit
  obtain ⟨rest, hrest, hhead⟩ := hinv.2
  refine ⟨rest, ?_, hhead⟩
  have hw : out.w ≠ 0 := by have := hinv.one_le; omega
  have hout' : cleanLoop true (p.length + 1) p (lazybuf.append { buf := [], w := 0 } '/') 1
      = some out := hout
  simp only [cleanChars, List.head?_cons, List.tail_cons, decide_True, if_true]
  simp [hout', hw, lazybuf.string, hrest]

/-! ## C7 -/

theorem indexSlash_spec (l : List Char) :
    ( '/' ∉ l ∧ indexSlash l = -1) ∨
    (∃ k : Nat, indexSlash l = (k : Int) ∧ '/' ∉ l.take k ∧ ∃ t, l.drop k = '/' :: t) := by
  induction l with
  | nil => exact Or.inl ⟨by simp, rfl⟩
  | cons c t ih =>
    by_cases hc : c = '/'
    · exact Or.inr ⟨0, by simp [indexSlash, hc], by simp, t, by simp [hc]⟩
    · rcases ih with ⟨hnot, hidx⟩ | ⟨k, hidx, hnot, u, hu⟩
      · refine Or.inl ⟨?_, by simp [indexSlash, hc, hidx]⟩
        simp only [List.mem_cons, not_or]
        exact ⟨fun h => hc h.symm, hnot⟩
      · refine Or.inr ⟨k + 1, ?_, ?_, u, by simpa using hu⟩
        · have hk : ¬ ((k : Int) < 0) := by omega
          simp [indexSlash, hc, hidx, hk]
        · simp only [List.take_succ_cons, List.mem_cons, not_or]
          exact ⟨fun h => hc h.symm, hnot⟩

/-- The function `ShiftPath` on the bytes of a path: it is defined, and splits the cleaned
path into its first segment and the rest. -/
theorem shiftChars_spec (p : List Char) :
    ∃ rest head tail,
      cleanChars ( '/' :: p) = some ( '/' :: rest) ∧
      shiftChars p = some (head, tail) ∧
      '/' ∉ head ∧ tail.head? = some '/' ∧
      (( '/' ∈ rest ∧ rest = head ++ tail) ∨ ( '/' ∉ rest ∧ rest = head ∧ tail = [ '/'])) ∧
      (rest = [] ∨ head ≠ []) := by
  obtain ⟨rest, hclean, hhead⟩ := cleanChars_rooted p
  rcases indexSlash_spec rest with ⟨hnot, hidx⟩ | ⟨k, hidx, hnot, u, hu⟩
  · refine ⟨rest, rest, [ '/'], hclean, ?_, hnot, rfl, Or.inr ⟨hnot, rfl, rfl⟩, ?_⟩
    · simp [shiftChars, hclean, hidx]
    · cases rest with
      | nil => exact Or.inl rfl
      | cons x xs => exact Or.inr (by simp)
  · have hmem : '/' ∈ rest := by
      have : '/' ∈ rest.drop k := by rw [hu]; simp
      exact List.mem_of_mem_drop this
    have hk : k ≠ 0 := by
      rintro rfl
      rw [List.drop_zero] at hu
      rw [hu] at hhead
      simp at hhead
    refine ⟨rest, rest.take k, rest.drop k, hclean, ?_, hnot, by rw [hu]; rfl,
      Or.inl ⟨hmem, (List.take_append_drop k rest).symm⟩, Or.inr ?_⟩
    · have hpos : ¬ ((k : Int) + 1 ≤ 0) := by omega
      have hnat : ((k : Int) + 1).toNat = k + 1 := by omega
      simp [shiftChars, hclean, hidx, hpos, hnat]
    · intro h
      have hlen := congrArg List.length h
      have hlt : k < rest.length := by
        by_contra hge
        have : rest.drop k = [] := List.drop_eq_nil_of_le (by omega)
        rw [this] at hu
        simp at hu
      simp only [List.length_take, List.length_nil] at hlen
      omega

/-- C7: for every path `p`, `ShiftPath p` is defined and returns `(head, tail)` where,
with `c` the cleaned path `Clean("/" + p)`: `head` holds no slash, `tail` begins with a
slash, `c = "/" + head + tail` when `c` has a slash after its first byte and
`c = "/" + head` with `tail = "/"` when it has none, and `head` is non-empty unless `c`
is the root; and `ShiftPath("") = ShiftPath("/") = ("", "/")`. -/
theorem ShiftPath_spec :
    (∀ p : String, ∃ c head tail,
      Clean ("/" ++ p) = some c ∧
      ShiftPath p = some (head, tail) ∧
      '/' ∉ head.data ∧ tail.data.head? = some '/' ∧
      (( '/' ∈ c.data.tail ∧ c = "/" ++ head ++ tail) ∨
        ( '/' ∉ c.data.tail ∧ c = "/" ++ head ∧ tail = "/")) ∧
      (c = "/" ∨ head ≠ "")) ∧
    ShiftPath "" = some ("", "/") ∧ ShiftPath "/" = some ("", "/") := by
  refine ⟨fun p => ?_, by decide, by decide⟩
  obtain ⟨rest, head, tail, hclean, hshift, hhead, htail, hsplit, hne⟩ := shiftChars_spec p.data
  have hdata : ("/" ++ p).data = '/' :: p.data := by
    rw [String.data_append]; rfl
  refine ⟨String.mk ( '/' :: rest), String.mk head, String.mk tail, ?_, ?_, hhead, htail,
    ?_, ?_⟩
  · simp [Clean, hdata, hclean]
  · simp [ShiftPath, hshift]
  · rcases hsplit with ⟨hmem, heq⟩ | ⟨hnot, heq, ht⟩
    · refine Or.inl ⟨hmem, ?_⟩
      apply String.ext
      rw [String.data_append, String.data_append, heq]
      rfl
    · refine Or.inr ⟨hnot, ?_, ?_⟩
      · apply String.ext
        rw [String.data_append, heq]
        rfl
      · rw [ht]
  · rcases hne with h | h
    · left; rw [h]
    · right
      intro hs
      apply h
      have := congrArg String.data hs
      simpa using this

/-! ## C4 -/

/-- C4, as stated, fails at `GET /species?id=abc`: the response status is 500, which is
not in the 400 class. -/
theorem species_unparseable_id_counterexample :
    Atoi "abc" = .error (.numError "Atoi" "abc" true) ∧
    (App.ServeHTTP exampleEnv (storeSvc [] []) (requestOf "GET" "/species" [("id", ["abc"])])).map
      Response.Status = some 500 ∧
    ¬ (400 ≤ 500 ∧ 500 < 500) := by
  decide

/-- C4, amended: for a GET request routed to /species with no further segment, whose
first `id` value is not an integer (every key of the query with a value), `GetPlants`
returns the error of `Atoi` and no list, and the response has status 500 and carries no
species list: the request is not treated as unfiltered. -/
theorem species_unparseable_id (env : Env) (svc : DynamoDB) (req : Request)
    (tail tail' v : String) (vs : List String) (e : GoError)
    (hmethod : req.Method = "GET")
    (hpath : ShiftPath req.Path = some ("species", tail))
    (hnext : ShiftPath tail = some ("", tail'))
    (hwf : WellFormed req.Query)
    (hid : req.Query.lookup "id" = some (v :: vs))
    (herr : Atoi v = .error e) :
    GetPlants svc [req.Query] = some (none, -1, some e) ∧
    ∃ r, App.ServeHTTP env svc req = some r ∧ r.Status = 500 ∧
      ∀ items, r.Body ≠ .species items := by
  refine ⟨GetPlants_of_unparseable svc hwf hid herr,
    httpError (Response.fresh.setHeader "Access-Control-Allow-Origin" "*") (.errorText e) 500,
    ?_, rfl, fun items h => ?_⟩
  · simp only [App.ServeHTTP, hpath, if_true, SpeciesHandler.ServeHTTP, hmethod, hnext,
      ne_eq, not_true_eq_false, if_false, GetPlants_of_unparseable svc hwf hid herr]
  · simp [httpError] at h

/-- C4 amended, at the example `GET /species?id=abc` over a store of two species. -/
theorem species_unparseable_id_witness :
    ShiftPath "/species" = some ("species", "/") ∧ ShiftPath "/" = some ("", "/") ∧
    WellFormed [("id", ["abc"])] ∧
    Atoi "abc" = .error (.numError "Atoi" "abc" true) ∧
    GetPlants (storeSvc [⟨1, "oak", "Quercus alba"⟩, ⟨2, "elm", "Ulmus minor"⟩] [])
        [[("id", ["abc"])]]
      = some (none, -1, some (.numError "Atoi" "abc" true)) ∧
    ∃ r, App.ServeHTTP exampleEnv
          (storeSvc [⟨1, "oak", "Quercus alba"⟩, ⟨2, "elm", "Ulmus minor"⟩] [])
          (requestOf "GET" "/species" [("id", ["abc"])]) = some r ∧
      r.Status = 500 ∧ ∀ items, r.Body ≠ .species items :=
  ⟨by decide, by decide, by decide, rfl,
    species_unparseable_id exampleEnv
      (storeSvc [⟨1, "oak", "Quercus alba"⟩, ⟨2, "elm", "Ulmus minor"⟩] [])
      (requestOf "GET" "/species" [("id", ["abc"])]) "/" "/" "abc" []
      (.numError "Atoi" "abc" true) rfl (by decide) (by decide) (by decide) rfl rfl⟩

/-! ## C8 -/

/-- C8, as stated, fails at `POST /species/extra`: the status is 405, not 404. -/
theorem species_extra_segment_counterexample :
    ShiftPath "/species/extra" = some ("species", "/extra") ∧
    ShiftPath "/extra" = some ("extra", "/") ∧
    (App.ServeHTTP exampleEnv (storeSvc [] []) (requestOf "POST" "/species/extra" [])).map
      Response.Status = some 405 := by
  decide

/-- C8, amended: the status is 404 for every request, of any method, whose first path
segment is neither "species" nor "occurrences"; 404 for every GET request to
/occurrences/x and to /species/x with a non-empty further segment x; and 405 for every
request to /species/x of another method than GET. -/
theorem App_ServeHTTP_not_found (env : Env) (svc : DynamoDB) (req : Request)
    (head tail : String) (hpath : ShiftPath req.Path = some (head, tail)) :
    (head ≠ "species" → head ≠ "occurrences" →
      ∃ r, App.ServeHTTP env svc req = some r ∧ r.Status = 404) ∧
    (∀ x t, ShiftPath tail = some (x, t) → x ≠ "" →
      (head = "occurrences" → req.Method = "GET" →
        ∃ r, App.ServeHTTP env svc req = some r ∧ r.Status = 404) ∧
      (head = "species" → req.Method = "GET" →
        ∃ r, App.ServeHTTP env svc req = some r ∧ r.Status = 404) ∧
      (head = "species" → req.Method ≠ "GET" →
        ∃ r, App.ServeHTTP env svc req = some r ∧ r.Status = 405)) := by
  refine ⟨fun h1 h2 => ⟨httpError (Response.fresh.setHeader "Access-Control-Allow-Origin" "*")
      (.literal "Not Found") 404, ?_, rfl⟩, fun x t hnext hx =>
    ⟨fun h1 hm => ⟨httpError (Response.fresh.setHeader "Access-Control-Allow-Origin" "*")
        (.literal "Not Found") 404, ?_, rfl⟩,
     fun h1 hm => ⟨httpError (Response.fresh.setHeader "Access-Control-Allow-Origin" "*")
        (.literal "Not Found") 404, ?_, rfl⟩, fun h1 hm => ?_⟩⟩
  · simp only [App.ServeHTTP, hpath, h1, h2, if_false]
  · subst h1
    simp only [App.ServeHTTP, hpath, show ("occurrences" = "species") = False from by decide,
      if_false, if_true, OccurrencesHandler.ServeHTTP, hm, hnext, ne_eq, hx,
      not_false_eq_true]
  · subst h1
    simp only [App.ServeHTTP, hpath, if_true, SpeciesHandler.ServeHTTP, hm, hnext, ne_eq, hx,
      not_false_eq_true]
  · subst h1
    by_cases hp : req.Method = "POST"
    · refine ⟨httpError (Response.fresh.setHeader "Access-Control-Allow-Origin" "*")
        (.literal "POST not implemented") 405, ?_, rfl⟩
      simp only [App.ServeHTTP, hpath, if_true, SpeciesHandler.ServeHTTP, hp,
        show ("POST" = "GET") = False from by decide, if_false]
    · refine ⟨httpError (Response.fresh.setHeader "Access-Control-Allow-Origin" "*")
        (.literal "Only GET and POST are allowed") 405, ?_, rfl⟩
      simp only [App.ServeHTTP, hpath, if_true, SpeciesHandler.ServeHTTP, hm, hp, if_false]

/-- C8 amended, at the examples /unknown and the root (with POST), GET
/occurrences/extra, GET /species/extra and DELETE /species/extra. -/
theorem App_ServeHTTP_not_found_witness :
    (ShiftPath "/unknown" = some ("unknown", "/") ∧
      ∃ r, App.ServeHTTP exampleEnv (storeSvc [] []) (requestOf "POST" "/unknown" [])
        = some r ∧ r.Status = 404) ∧
    (ShiftPath "/" = some ("", "/") ∧
      ∃ r, App.ServeHTTP exampleEnv (storeSvc [] []) (requestOf "GET" "/" [])
        = some r ∧ r.Status = 404) ∧
    (ShiftPath "/occurrences/extra" = some ("occurrences", "/extra") ∧
      ShiftPath "/extra" = some ("extra", "/") ∧
      ∃ r, App.ServeHTTP exampleEnv (storeSvc [] []) (requestOf "GET" "/occurrences/extra" [])
        = some r ∧ r.Status = 404) ∧
    (ShiftPath "/species/extra" = some ("species", "/extra") ∧
      ∃ r, App.ServeHTTP exampleEnv (storeSvc [] []) (requestOf "GET" "/species/extra" [])
        = some r ∧ r.Status = 404) ∧
    (∃ r, App.ServeHTTP exampleEnv (storeSvc [] []) (requestOf "DELETE" "/species/extra" [])
        = some r ∧ r.Status = 405) :=
  ⟨⟨by decide,
     (App_ServeHTTP_not_found exampleEnv (storeSvc [] []) (requestOf "POST" "/unknown" [])
       "unknown" "/" (by decide)).1 (by decide) (by decide)⟩,
   ⟨by decide,
     (App_ServeHTTP_not_found exampleEnv (storeSvc [] []) (requestOf "GET" "/" [])
       "" "/" (by decide)).1 (by decide) (by decide)⟩,
   ⟨by decide, by decide,
     ((App_ServeHTTP_not_found exampleEnv (storeSvc [] [])
       (requestOf "GET" "/occurrences/extra" []) "occurrences" "/extra" (by decide)).2
         "extra" "/" (by decide) (by decide)).1 rfl rfl⟩,
   ⟨by decide,
     ((App_ServeHTTP_not_found exampleEnv (storeSvc [] [])
       (requestOf "GET" "/species/extra" []) "species" "/extra" (by decide)).2
         "extra" "/" (by decide) (by decide)).2.1 rfl rfl⟩,
   ((App_ServeHTTP_not_found exampleEnv (storeSvc [] [])
       (requestOf "DELETE" "/species/extra" []) "species" "/extra" (by decide)).2
         "extra" "/" (by decide) (by decide)).2.2 rfl (by decide)⟩

/-! ## C9 -/

theorem occurrencesCollect_congr (acc : F64) (dateFrom d₁ d₂ : Time)
    (h : formatDate d₁ = formatDate d₂) (raw : List Item) :
    ∀ (resultItems : List OccurrenceInfo) (numItems : Int),
      occurrencesCollect acc dateFrom d₁ raw resultItems numItems =
        occurrencesCollect acc dateFrom d₂ raw resultItems numItems := by
  have hk : ∀ it, keepOccurrence acc dateFrom d₁ it = keepOccurrence acc dateFrom d₂ it := by
    intro it; simp only [keepOccurrence, h]
  induction raw with
  | nil => intro r n; rfl
  | cons i rest ih =>
    intro r n
    unfold occurrencesCollect
    cases i.occurrence with
    | error err => rfl
    | ok item => simp only [hk item, ih]

theorem GetOccurrences_congr (fl : FloatOps) (svc : DynamoDB) (vals : Values)
    (now₁ now₂ : Time)
    (h : occurrencesDateTo now₁ vals = occurrencesDateTo now₂ vals ∨
      ∃ d₁ d₂, occurrencesDateTo now₁ vals = some d₁ ∧ occurrencesDateTo now₂ vals = some d₂ ∧
        formatDate d₁ = formatDate d₂) :
    GetOccurrences fl now₁ svc vals = GetOccurrences fl now₂ svc vals := by
  rcases h with h | ⟨d₁, d₂, h₁, h₂, hfmt⟩
  · unfold GetOccurrences
    rw [h]
  · unfold GetOccurrences
    rw [h₁, h₂]
    cases occurrencesFilter vals with
    | none => rfl
    | some filt =>
      cases occurrencesDateFrom vals with
      | none => rfl
      | some dateFrom =>
        cases occurrencesAcc fl vals with
        | none => rfl
        | some acc =>
          simp only
          cases Build filt _ with
          | error err => rfl
          | ok expr =>
            simp only
            cases svc.Scan _ with
            | error err => rfl
            | ok items =>
              simp only [occurrencesCollect_congr acc dateFrom d₁ d₂ hfmt]

/-- C9, as stated, fails for `GetOccurrences`: over the same store and with the same
(empty) parameter map, a call made on 15 June 2020 returns nothing and a call made on 16
June 2020 returns the occurrence dated 16 June 2020. -/
theorem GetOccurrences_clock_counterexample :
    GetOccurrences exampleFloatOps { year := 2020, month := 6, day := 15, sec := 43200 }
        (storeSvc [] [occurrenceOn "2020-06-16"]) []
      = some (some [], 0, none) ∧
    GetOccurrences exampleFloatOps { year := 2020, month := 6, day := 16, sec := 43200 }
        (storeSvc [] [occurrenceOn "2020-06-16"]) []
      = some (some [occurrenceOn "2020-06-16"], 1, none) := by
  decide

/-- C9, amended: two calls of `GetOccurrences` with the same parameter map against the
same client return the same result whenever `dateto` is given and parses, or the two
calls are made at moments whose following day renders the same; and the response to a
request routed to /species does not depend on the moment of the call. -/
theorem GetOccurrences_repeatable (fl : FloatOps) (svc : DynamoDB) (vals : Values)
    (now₁ now₂ : Time)
    (h : (∃ s rest t, vals.lookup "dateto" = some (s :: rest) ∧ parseDate s = some t) ∨
      formatDate (addDay now₁) = formatDate (addDay now₂)) :
    GetOccurrences fl now₁ svc vals = GetOccurrences fl now₂ svc vals ∧
    ∀ (env : Env) (req : Request) (tail : String),
      ShiftPath req.Path = some ("species", tail) →
      App.ServeHTTP { env with now := now₁ } svc req
        = App.ServeHTTP { env with now := now₂ } svc req := by
  constructor
  · apply GetOccurrences_congr
    rcases h with ⟨s, rest, t, hs, ht⟩ | h
    · left
      simp only [occurrencesDateTo, hs, List.head?_cons, ht]
    · cases hl : vals.lookup "dateto" with
      | none =>
        right
        exact ⟨addDay now₁, addDay now₂, by simp [occurrencesDateTo, hl],
          by simp [occurrencesDateTo, hl], h⟩
      | some l =>
        cases l with
        | nil => left; simp [occurrencesDateTo, hl]
        | cons s rest =>
          cases hp : parseDate s with
          | some t => left; simp [occurrencesDateTo, hl, hp]
          | none =>
            right
            exact ⟨addDay now₁, addDay now₂, by simp [occurrencesDateTo, hl, hp],
              by simp [occurrencesDateTo, hl, hp], h⟩
  · intro env req tail hpath
    simp only [App.ServeHTTP, hpath, if_true]

/-- C9 amended, at an example: two calls on 15 June 2020, at noon and one second before
midnight, and a request to /species. -/
theorem GetOccurrences_repeatable_witness :
    formatDate (addDay { year := 2020, month := 6, day := 15, sec := 43200 })
      = formatDate (addDay { year := 2020, month := 6, day := 15, sec := 86399 }) ∧
    GetOccurrences exampleFloatOps { year := 2020, month := 6, day := 15, sec := 43200 }
        (storeSvc [] [occurrenceOn "2020-06-16"]) []
      = GetOccurrences exampleFloatOps { year := 2020, month := 6, day := 15, sec := 86399 }
        (storeSvc [] [occurrenceOn "2020-06-16"]) [] ∧
    ShiftPath "/species" = some ("species", "/") ∧
    App.ServeHTTP { exampleEnv with now := { year := 2020, month := 6, day := 15, sec := 43200 } }
        (storeSvc [] [occurrenceOn "2020-06-16"]) (requestOf "GET" "/species" [])
      = App.ServeHTTP
        { exampleEnv with now := { year := 2020, month := 6, day := 15, sec := 86399 } }
        (storeSvc [] [occurrenceOn "2020-06-16"]) (requestOf "GET" "/species" []) :=
  ⟨by decide,
    (GetOccurrences_repeatable exampleFloatOps (storeSvc [] [occurrenceOn "2020-06-16"]) []
      { year := 2020, month := 6, day := 15, sec := 43200 }
      { year := 2020, month := 6, day := 15, sec := 86399 } (Or.inr (by decide))).1,
    by decide,
    (GetOccurrences_repeatable exampleFloatOps (storeSvc [] [occurrenceOn "2020-06-16"]) []
      { year := 2020, month := 6, day := 15, sec := 43200 }
      { year := 2020, month := 6, day := 15, sec := 86399 } (Or.inr (by decide))).2
      exampleEnv (requestOf "GET" "/species" []) "/" (by decide)⟩

end PlantTracker
